import Mathlib

/-!
Shallow embedding of the trace-viewer workbench coordination logic
(`packages/trace-viewer/src/ui/workbench.tsx`): the derived-action
resolver, the boundary calculator, the selection state store transitions,
and the properties-tab registry. JS numbers are modelled as rationals,
optional values as `Option`, and the React state cells as one record with
explicit transition functions mirroring the callbacks in the source.
-/

namespace TraceViewer

/-- An attachment, external to this core; only its identity matters here. -/
structure Attachment where
  name : String
deriving DecidableEq, Repr

/-- One recorded action of the trace model (`ActionTraceEventInContext`),
restricted to the fields this core reads: `callId`, `apiName` and the
optional `attachments` list. -/
structure Action where
  callId : String
  apiName : String
  attachments : Option (List Attachment)
deriving DecidableEq, Repr

/-- The slice of `MultiTraceModel` consumed by the workbench: the ordered
action list, the time stamps, and the `failedAction()` query result
(the query itself lives in an external collaborator, so it is carried as
model data). -/
structure Model where
  actions : List Action
  startTime : ℚ
  endTime : ℚ
  wallTime : ℚ
  failedAction : Option Action
deriving DecidableEq, Repr

/-- A time window `{minimum, maximum}`. -/
structure Boundaries where
  minimum : ℚ
  maximum : ℚ
deriving DecidableEq, Repr

/-- An error description; this core only looks at its optional action. -/
structure ErrorDescription where
  action : Option Action
  message : String
deriving DecidableEq, Repr

/-- The scan of the `for` loop in the `selectedAction` memo (lines
104-110): walking the actions with counter `i`, the first action with
`apiName === 'After Hooks'` at a truthy index `i` breaks the loop and
yields `i - 1`; otherwise no reassignment happens. -/
def afterHooksBreak : List Action → Nat → Option Nat
  | [], _ => none
  | a :: rest, i =>
    if a.apiName = "After Hooks" ∧ i ≠ 0 then some (i - 1)
    else afterHooksBreak rest (i + 1)

/-- The index finally read by `model.actions[index]`: the loop result if
the loop broke, else the initial value `model.actions.length - 1`. -/
def resolveIndex (actions : List Action) : Nat :=
  (afterHooksBreak actions 0).getD (actions.length - 1)

/-- The guarded lookup of lines 92-96: a truthy (defined and non-empty)
`selectedCallId` is looked up with `model?.actions.find(...)`; a falsy
one is not looked up at all. -/
def resolveById (model : Option Model) (selectedCallId : Option String) : Option Action :=
  match selectedCallId with
  | some s =>
    if s = "" then none
    else match model with
      | some m => m.actions.find? (fun a => a.callId = s)
      | none => none
  | none => none

/-- The `selectedAction` memo (lines 91-113): a truthy (non-empty)
`selectedCallId` that finds an action wins; else the model's failed
action; else the index chosen by the after-hooks loop; else `none`. -/
def resolveSelectedAction (model : Option Model) (selectedCallId : Option String) :
    Option Action :=
  match resolveById model selectedCallId with
  | some a => some a
  | none =>
    match model with
    | none => none
    | some m =>
      match m.failedAction with
      | some f => some f
      | none =>
        if m.actions.length = 0 then none
        else m.actions[resolveIndex m.actions]?

/-- The `activeAction` memo (lines 115-117): `highlightedAction ||
selectedAction` (both are objects or `undefined`, so `||` picks the first
present one). -/
def resolveActiveAction (highlighted selected : Option Action) : Option Action :=
  highlighted.orElse (fun _ => selected)

/-- JS defaulting `model?.startTime || 0`: an absent model or a falsy
(zero) start time yields 0. -/
def defaultedStartTime (model : Option Model) : ℚ :=
  match model with
  | none => 0
  | some m => if m.startTime = 0 then 0 else m.startTime

/-- JS defaulting `model?.endTime || 30000`: an absent model or a falsy
(zero) end time yields 30000. -/
def defaultedEndTime (model : Option Model) : ℚ :=
  match model with
  | none => 30000
  | some m => if m.endTime = 0 then 30000 else m.endTime

/-- The `boundaries` memo (lines 268-277): default the two ends, reset an
inverted window to `{0, 30000}`, then pad the right edge by 5% of the
width. -/
def boundariesOf (model : Option Model) : Boundaries :=
  let min0 : ℚ := defaultedStartTime model
  let max0 : ℚ := defaultedEndTime model
  let min1 : ℚ := if min0 > max0 then 0 else min0
  let max1 : ℚ := if min0 > max0 then 30000 else max0
  { minimum := min1, maximum := max1 + (max1 - min1) / 20 }

/-- The React state cells of the workbench component that form the
selection state store (lines 58-69). Hover identities of network and
console entries are kept as opaque keys. -/
structure WorkbenchState where
  selectedCallId : Option String
  highlightedCallId : Option String
  highlightedEntry : Option String
  highlightedConsoleMessage : Option String
  selectedNavigatorTab : String
  selectedPropertiesTab : String
  isInspecting : Bool
  highlightedLocator : String
  selectedTime : Option Boundaries
  sidebarLocation : String
  revealedError : Option ErrorDescription
  revealedAttachment : Option Attachment
deriving DecidableEq, Repr

/-- `setSelectedAction` (lines 71-74): store the action's `callId` (or
clear it) and clear any revealed error. -/
def setSelectedAction (action : Option Action) (s : WorkbenchState) : WorkbenchState :=
  { s with selectedCallId := action.map Action.callId, revealedError := none }

/-- `setHighlightedAction` (lines 80-82): store only the highlighted id. -/
def setHighlightedAction (action : Option Action) (s : WorkbenchState) : WorkbenchState :=
  { s with highlightedCallId := action.map Action.callId }

/-- `selectPropertiesTab` (lines 130-134): set the tab; any tab other
than `'inspector'` turns inspecting off. -/
def selectPropertiesTab (tab : String) (s : WorkbenchState) : WorkbenchState :=
  let s1 := { s with selectedPropertiesTab := tab }
  if tab ≠ "inspector" then { s1 with isInspecting := false } else s1

/-- `setIsInspecting` (lines 136-140): turning inspecting on from off
first selects the `'inspector'` tab; then the flag is written. -/
def setIsInspecting (value : Bool) (s : WorkbenchState) : WorkbenchState :=
  let s1 := if !s.isInspecting && value then selectPropertiesTab "inspector" s else s
  { s1 with isInspecting := value }

/-- `locatorPicked` (lines 142-145): store the locator text and select
the `'inspector'` tab. -/
def locatorPicked (locator : String) (s : WorkbenchState) : WorkbenchState :=
  selectPropertiesTab "inspector" { s with highlightedLocator := locator }

/-- `revealAttachment` (lines 147-150): select the `'attachments'` tab
and store the attachment to reveal. -/
def revealAttachment (attachment : Attachment) (s : WorkbenchState) : WorkbenchState :=
  { selectPropertiesTab "attachments" s with revealedAttachment := some attachment }

/-- The `revealInSource` callback of the errors tab (lines 189-195),
the store's error-reveal operation: an error tied to an action selects
that action, a standalone error is stored, and the `'source'` tab is
selected. -/
def revealError (error : ErrorDescription) (s : WorkbenchState) : WorkbenchState :=
  let s1 := match error.action with
    | some a => setSelectedAction (some a) s
    | none => { s with revealedError := some error }
  selectPropertiesTab "source" s1

/-- The `useEffect` with dependency `[model]` (lines 86-89): a model
replacement clears the selected time range and the revealed error. -/
def onModelReplaced (s : WorkbenchState) : WorkbenchState :=
  { s with selectedTime := none, revealedError := none }

/-- The invariant coupling the inspecting flag to the properties tab. -/
def InspectInv (s : WorkbenchState) : Prop :=
  s.isInspecting = true → s.selectedPropertiesTab = "inspector"

instance (s : WorkbenchState) : Decidable (InspectInv s) := by
  unfold InspectInv; infer_instance

/-- The slice of `TabbedPaneTabModel` this core constructs: id, title and
the two optional badge counters (`count`, `errorCount`); the lazy render
callback is excluded from the model. -/
structure TabModel where
  id : String
  title : String
  count : Option Nat
  errorCount : Option Nat
deriving DecidableEq, Repr

/-- An entry of the `annotations` configuration input. -/
structure AnnotationItem where
  type : String
  description : Option String
deriving DecidableEq, Repr

/-- `Array.prototype.indexOf`: first index of the element, `-1` when the
element is absent. -/
def jsIndexOfAux {α : Type} [DecidableEq α] (x : α) : List α → Nat → Int
  | [], _ => -1
  | a :: rest, i => if a = x then (i : Int) else jsIndexOfAux x rest (i + 1)

/-- `tabs.indexOf(t)`. -/
def jsIndexOf {α : Type} [DecidableEq α] (l : List α) (x : α) : Int :=
  jsIndexOfAux x l 0

/-- `Array.prototype.splice` start-index normalisation: a negative start
counts back from the end (clamped at 0), a positive one is clamped at the
length. -/
def jsSpliceStart (len : Nat) (start : Int) : Nat :=
  if start < 0 then ((len : Int) + start).toNat else min start.toNat len

/-- `l.splice(start, deleteCount)` restricted to its deletion effect. -/
def jsSpliceDelete {α : Type} (l : List α) (start : Int) (deleteCount : Nat) : List α :=
  let s := jsSpliceStart l.length start
  l.take s ++ l.drop (s + deleteCount)

/-- `l.splice(start, 0, x)`: insert `x` at the normalised start index. -/
def jsSpliceInsert {α : Type} (l : List α) (start : Int) (x : α) : List α :=
  let s := jsSpliceStart l.length start
  l.take s ++ x :: l.drop s

/-- `attachments` memo (lines 160-162): all attachments of all actions,
flattened, with `a.attachments || []` defaulting. -/
def attachmentsOf (model : Option Model) : List Attachment :=
  match model with
  | some m => (m.actions.map (fun a => a.attachments.getD [])).flatten
  | none => []

/-- The `inspector` tab descriptor (lines 166-174). -/
def inspectorTab : TabModel := { id := "inspector", title := "Locator", count := none, errorCount := none }

/-- The `call` tab descriptor (lines 175-179). -/
def callTab : TabModel := { id := "call", title := "Call", count := none, errorCount := none }

/-- The `log` tab descriptor (lines 180-184). -/
def logTab : TabModel := { id := "log", title := "Log", count := none, errorCount := none }

/-- The `errors` tab descriptor (lines 185-196); its badge comes from the
external errors model. -/
def errorsTab (errorsCount : Nat) : TabModel :=
  { id := "errors", title := "Errors", count := none, errorCount := some errorsCount }

/-- The `console` tab descriptor (lines 217-228); badge from the external
console model. -/
def consoleTab (consoleCount : Nat) : TabModel :=
  { id := "console", title := "Console", count := some consoleCount, errorCount := none }

/-- The `network` tab descriptor (lines 229-234); badge from the external
network model. -/
def networkTab (networkCount : Nat) : TabModel :=
  { id := "network", title := "Network", count := some networkCount, errorCount := none }

/-- The `attachments` tab descriptor (lines 235-240). -/
def attachmentsTab (model : Option Model) : TabModel :=
  { id := "attachments", title := "Attachments", count := some (attachmentsOf model).length, errorCount := none }

/-- The `annotations` tab descriptor (lines 253-258). -/
def annotationsTab (anns : List AnnotationItem) : TabModel :=
  { id := "annotations", title := "Annotations", count := some anns.length, errorCount := none }

/-- The tab value named `sourceTab` at lines 263-265. Its defining
declaration (lines 204-216) is commented out in the source, so at run
time the name does not resolve; it is modelled here as a tab descriptor
that is never placed in the base list, which makes `indexOf` yield `-1`
exactly as it would for any value not contained in the array. -/
def sourceTab : TabModel := { id := "source", title := "Source", count := none, errorCount := none }

/-- The properties tab list (lines 242-266): the seven base tabs, then
the conditional annotations tab push, then the `showSourcesFirst` splice
pair `tabs.splice(tabs.indexOf(sourceTab), 1); tabs.splice(1, 0,
sourceTab)`. -/
def buildTabs (showSourcesFirst : Bool) (anns : Option (List AnnotationItem))
    (model : Option Model) (errorsCount consoleCount networkCount : Nat) : List TabModel :=
  let tabs := [inspectorTab, callTab, logTab, errorsTab errorsCount,
    consoleTab consoleCount, networkTab networkCount, attachmentsTab model]
  let tabs := match anns with
    | some l => tabs ++ [annotationsTab l]
    | none => tabs
  if showSourcesFirst then
    jsSpliceInsert (jsSpliceDelete tabs (jsIndexOf tabs sourceTab) 1) 1 sourceTab
  else tabs

/-- Actions `x`, `After Hooks`, `y`: an after-hooks step that is not the
last action. -/
def mMidHooks : Model :=
  { actions := [⟨"a", "x", none⟩, ⟨"b", "After Hooks", none⟩, ⟨"c", "y", none⟩],
    startTime := 0, endTime := 0, wallTime := 0, failedAction := none }

/-- Actions `x`, `y`, `After Hooks`: the usual shape with the after-hooks
step last. -/
def mEndHooks : Model :=
  { actions := [⟨"a", "x", none⟩, ⟨"b", "y", none⟩, ⟨"c", "After Hooks", none⟩],
    startTime := 0, endTime := 0, wallTime := 0, failedAction := none }

/-- Two actions, the first carrying the empty string as its `callId`. -/
def mEmptyId : Model :=
  { actions := [⟨"", "x", none⟩, ⟨"b", "y", none⟩],
    startTime := 0, endTime := 0, wallTime := 0, failedAction := none }

/-- Two actions with a failed action reported by the model. -/
def mFailed : Model :=
  { actions := [⟨"a", "x", none⟩, ⟨"b", "y", none⟩],
    startTime := 0, endTime := 0, wallTime := 0, failedAction := some ⟨"a", "x", none⟩ }

/-- An inverted time range: `startTime = 100 > endTime = 50`. -/
def mInverted : Model :=
  { actions := [], startTime := 100, endTime := 50, wallTime := 0, failedAction := none }

/-- Zero start and end times. -/
def mZeroTimes : Model :=
  { actions := [], startTime := 0, endTime := 0, wallTime := 0, failedAction := none }

/-- A concrete store state on the `call` tab with inspecting off. -/
def sCall : WorkbenchState :=
  { selectedCallId := none, highlightedCallId := none, highlightedEntry := none,
    highlightedConsoleMessage := none, selectedNavigatorTab := "actions",
    selectedPropertiesTab := "call", isInspecting := false, highlightedLocator := "",
    selectedTime := some ⟨0, 10⟩, sidebarLocation := "bottom",
    revealedError := none, revealedAttachment := none }

/-! ### Helper lemmas -/

theorem afterHooksBreak_eq_none (l : List Action) (n : Nat)
    (h : ∀ a ∈ l, a.apiName ≠ "After Hooks") :
    afterHooksBreak l n = none := by
  induction l generalizing n with
  | nil => rfl
  | cons x xs ih =>
    rw [afterHooksBreak, if_neg]
    · exact ih (n + 1) (fun a ha => h a (List.mem_cons_of_mem x ha))
    · rintro ⟨h1, -⟩
      exact h x (List.mem_cons_self x xs) h1

theorem afterHooksBreak_eq_some (l : List Action) (n k : Nat) (a : Action)
    (hn : 0 < n) (hget : l[k]? = some a) (hpa : a.apiName = "After Hooks")
    (hmin : ∀ i b, i < k → l[i]? = some b → b.apiName ≠ "After Hooks") :
    afterHooksBreak l n = some (n + k - 1) := by
  induction l generalizing n k with
  | nil => simp at hget
  | cons x xs ih =>
    cases k with
    | zero =>
      simp only [List.getElem?_cons_zero, Option.some.injEq] at hget
      subst hget
      rw [afterHooksBreak, if_pos ⟨hpa, Nat.pos_iff_ne_zero.mp hn⟩]
      simp
    | succ k' =>
      have hx : x.apiName ≠ "After Hooks" :=
        hmin 0 x (Nat.succ_pos k') (by simp)
      rw [afterHooksBreak, if_neg (by rintro ⟨h1, -⟩; exact hx h1)]
      have hrec := ih (n + 1) k' (Nat.succ_pos n) (by simpa using hget)
        (fun i b hi hb => hmin (i + 1) b (Nat.succ_lt_succ hi) (by simpa using hb))
      rw [hrec]
      congr 1
      omega

theorem afterHooksBreak_cons_zero (x : Action) (xs : List Action) :
    afterHooksBreak (x :: xs) 0 = afterHooksBreak xs 1 := by
  rw [afterHooksBreak, if_neg]
  rintro ⟨-, h2⟩
  exact h2 rfl

theorem resolveIndex_no_hooks (x : Action) (xs : List Action)
    (h : ∀ a ∈ xs, a.apiName ≠ "After Hooks") :
    resolveIndex (x :: xs) = xs.length := by
  rw [resolveIndex, afterHooksBreak_cons_zero, afterHooksBreak_eq_none xs 1 h]
  simp

theorem resolveIndex_hooks (x : Action) (xs : List Action) (k : Nat) (a : Action)
    (hget : xs[k]? = some a) (hpa : a.apiName = "After Hooks")
    (hmin : ∀ i b, i < k → xs[i]? = some b → b.apiName ≠ "After Hooks") :
    resolveIndex (x :: xs) = k := by
  rw [resolveIndex, afterHooksBreak_cons_zero,
    afterHooksBreak_eq_some xs 1 k a Nat.one_pos hget hpa hmin]
  simp only [Option.getD_some]
  omega

theorem resolveById_eq_none (m : Model) (sel : Option String)
    (hsel : ∀ s, sel = some s → m.actions.find? (fun a => a.callId = s) = none) :
    resolveById (some m) sel = none := by
  cases sel with
  | none => rfl
  | some s =>
    by_cases hs : s = ""
    · simp [resolveById, hs]
    · simp [resolveById, hs, hsel s rfl]

theorem resolveSelectedAction_fallback (m : Model) (sel : Option String)
    (hsel : ∀ s, sel = some s → m.actions.find? (fun a => a.callId = s) = none)
    (hfail : m.failedAction = none) (hne : m.actions ≠ []) :
    resolveSelectedAction (some m) sel = m.actions[resolveIndex m.actions]? := by
  rw [resolveSelectedAction, resolveById_eq_none m sel hsel, hfail]
  rw [if_neg (by simpa using hne)]

theorem find?_callId_of_mem (l : List Action) (a : Action)
    (hmem : a ∈ l) (huniq : l.Pairwise (fun x y => x.callId ≠ y.callId)) :
    l.find? (fun b => b.callId = a.callId) = some a := by
  induction l with
  | nil => simp at hmem
  | cons x xs ih =>
    rcases List.mem_cons.mp hmem with rfl | hxs
    · simp
    · have hx : x.callId ≠ a.callId := (List.pairwise_cons.mp huniq).1 a hxs
      rw [List.find?_cons_of_neg _ (by simpa using hx)]
      exact ih hxs (List.pairwise_cons.mp huniq).2

theorem inspectInv_selectPropertiesTab (tab : String) (s : WorkbenchState) :
    InspectInv (selectPropertiesTab tab s) := by
  unfold InspectInv selectPropertiesTab
  by_cases htab : tab = "inspector"
  · simp [htab]
  · simp [htab]

theorem selectPropertiesTab_tab (tab : String) (s : WorkbenchState) :
    (selectPropertiesTab tab s).selectedPropertiesTab = tab := by
  unfold selectPropertiesTab
  by_cases htab : tab = "inspector"
  · simp [htab]
  · simp [htab]

theorem selectPropertiesTab_off (tab : String) (s : WorkbenchState)
    (h : tab ≠ "inspector") : (selectPropertiesTab tab s).isInspecting = false := by
  simp [selectPropertiesTab, h]

/-! ### Claim theorems -/

/-- C1 (counterexample): on actions `x`, `After Hooks`, `y` with no
selection and no failure, the last action `y` is not an after-hooks step,
so the claim predicts the last action `⟨"c", "y"⟩`; the code breaks at
the first after-hooks step at a positive index and returns `⟨"a", "x"⟩`
instead. -/
theorem C1_counterexample :
    resolveSelectedAction (some mMidHooks) none = some ⟨"a", "x", none⟩ ∧
    mMidHooks.actions.getLast? = some ⟨"c", "y", none⟩ ∧
    (⟨"c", "y", none⟩ : Action).apiName ≠ "After Hooks" ∧
    mMidHooks.failedAction = none ∧
    resolveSelectedAction (some mMidHooks) none ≠ mMidHooks.actions.getLast? := by
  decide

/-- C1 (amended): with at least one action, an unresolvable selection and
no failed action, the resolver returns the action immediately preceding
the first `'After Hooks'` action found at a positive index; when no
`'After Hooks'` action occurs at a positive index, it returns the last
action (in particular an `'After Hooks'` action at index 0 that is the
last action is itself returned). -/
theorem C1_last_action_rule (m : Model) (sel : Option String)
    (hne : m.actions ≠ [])
    (hsel : ∀ s, sel = some s → m.actions.find? (fun a => a.callId = s) = none)
    (hfail : m.failedAction = none) :
    ((∀ j a, 0 < j → m.actions[j]? = some a → a.apiName ≠ "After Hooks") →
      resolveSelectedAction (some m) sel = m.actions.getLast?) ∧
    (∀ j a, 0 < j → m.actions[j]? = some a → a.apiName = "After Hooks" →
      (∀ k b, 0 < k → k < j → m.actions[k]? = some b → b.apiName ≠ "After Hooks") →
      resolveSelectedAction (some m) sel = m.actions[j - 1]?) := by
  rw [resolveSelectedAction_fallback m sel hsel hfail hne]
  cases hA : m.actions with
  | nil => exact absurd hA hne
  | cons x xs =>
    constructor
    · intro hnone
      have hxs : ∀ a ∈ xs, a.apiName ≠ "After Hooks" := by
        intro a ha
        obtain ⟨i, hi⟩ := List.mem_iff_getElem?.mp ha
        exact hnone (i + 1) a (Nat.succ_pos i) (by simpa using hi)
      rw [resolveIndex_no_hooks x xs hxs, List.getLast?_eq_getElem?]
      simp
    · intro j a hj hget hpa hmin
      obtain ⟨k, rfl⟩ : ∃ k, j = k + 1 := ⟨j - 1, (Nat.succ_pred_eq_of_pos hj).symm⟩
      have hget' : xs[k]? = some a := by simpa using hget
      have hmin' : ∀ i b, i < k → xs[i]? = some b → b.apiName ≠ "After Hooks" := by
        intro i b hi hb
        exact hmin (i + 1) b (Nat.succ_pos i) (Nat.succ_lt_succ hi) (by simpa using hb)
      rw [resolveIndex_hooks x xs k a hget' hpa hmin']
      simp

/-- C1 (witness): on actions `x`, `y`, `After Hooks` with no selection
and no failure, the amended rule yields the second-to-last action `y`. -/
theorem C1_last_action_rule_witness :
    resolveSelectedAction (some mEndHooks) none = some ⟨"b", "y", none⟩ := by
  have hmin : ∀ k b, 0 < k → k < 2 → mEndHooks.actions[k]? = some b →
      b.apiName ≠ "After Hooks" := by
    intro k b h1 h2 hb
    have hk : k = 1 := by omega
    subst hk
    have hbv : b = ⟨"b", "y", none⟩ := by
      have : mEndHooks.actions[1]? = some (⟨"b", "y", none⟩ : Action) := by decide
      rw [this] at hb
      exact (Option.some.injEq _ _ ▸ hb).symm
    subst hbv
    decide
  have h := (C1_last_action_rule mEndHooks none (by decide)
    (fun s hs => nomatch hs) rfl).2 2 ⟨"c", "After Hooks", none⟩
    (by omega) (by decide) rfl hmin
  rw [h]
  decide

/-- C2: with `showSourcesFirst` set, the code's `tabs.indexOf(sourceTab)`
cannot find a source tab — the `sourceTab` declaration is commented out,
so the base list never contains it and `indexOf` yields `-1`; the splice
pair then deletes the final (attachments) tab and inserts the phantom
source tab at index 1, so the other tabs do not keep their relative
order (the attachments tab disappears), contradicting the claim. -/
theorem C2_sources_first_behavior :
    jsIndexOf (buildTabs false none none 0 0 0) sourceTab = -1 ∧
    (buildTabs true none none 0 0 0).map TabModel.id =
      ["inspector", "source", "call", "log", "errors", "console", "network"] ∧
    "attachments" ∉ (buildTabs true none none 0 0 0).map TabModel.id := by
  decide

/-- C3: every store operation — `selectPropertiesTab`, `setIsInspecting`,
`locatorPicked` (pick-locator), `revealAttachment` and `revealError` —
preserves the invariant `isInspecting = true → selectedPropertiesTab =
'inspector'`. -/
theorem C3_inspect_invariant (s : WorkbenchState) (h : InspectInv s) :
    (∀ tab, InspectInv (selectPropertiesTab tab s)) ∧
    (∀ v, InspectInv (setIsInspecting v s)) ∧
    (∀ loc, InspectInv (locatorPicked loc s)) ∧
    (∀ att, InspectInv (revealAttachment att s)) ∧
    (∀ err, InspectInv (revealError err s)) := by
  refine ⟨fun tab => inspectInv_selectPropertiesTab tab s, fun v => ?_,
    fun loc => inspectInv_selectPropertiesTab "inspector" _, fun att => ?_, fun err => ?_⟩
  · unfold InspectInv setIsInspecting
    cases v with
    | false => simp
    | true =>
      by_cases hi : s.isInspecting
      · simpa [hi] using h hi
      · simp only [Bool.not_eq_true] at hi
        simp [hi, selectPropertiesTab_tab]
  · unfold InspectInv revealAttachment
    simp [selectPropertiesTab_off "attachments" s (by decide)]
  · unfold InspectInv revealError
    exact inspectInv_selectPropertiesTab "source" _

/-- C3 (witness): the invariant holds at a concrete state and is kept by
a concrete operation. -/
theorem C3_inspect_invariant_witness :
    InspectInv (selectPropertiesTab "log" sCall) :=
  (C3_inspect_invariant sCall (by decide)).1 "log"

/-- C4: any model whose defaulted start time exceeds its defaulted end
time is reset to the `{0, 30000}` window and padded to `{0, 31500}`. -/
theorem C4_inverted_boundary (m : Model)
    (h : defaultedStartTime (some m) > defaultedEndTime (some m)) :
    boundariesOf (some m) = { minimum := 0, maximum := 31500 } := by
  simp only [boundariesOf, if_pos h]
  norm_num [Boundaries.mk.injEq]

/-- C4 (witness): the model with `startTime = 100`, `endTime = 50` is
inverted and yields `{0, 31500}`. -/
theorem C4_inverted_boundary_witness :
    boundariesOf (some mInverted) = { minimum := 0, maximum := 31500 } :=
  C4_inverted_boundary mInverted (by decide)

/-- C5: from any state on the `call` tab with inspecting off,
`setIsInspecting true` moves to the `inspector` tab with inspecting on,
and a subsequent `selectPropertiesTab 'log'` turns inspecting off and
lands on the `log` tab. -/
theorem C5_scenario (s : WorkbenchState)
    (htab : s.selectedPropertiesTab = "call") (hins : s.isInspecting = false) :
    (setIsInspecting true s).selectedPropertiesTab = "inspector" ∧
    (setIsInspecting true s).isInspecting = true ∧
    (selectPropertiesTab "log" (setIsInspecting true s)).isInspecting = false ∧
    (selectPropertiesTab "log" (setIsInspecting true s)).selectedPropertiesTab = "log" := by
  have h0 : s.selectedPropertiesTab = "call" := htab
  simp [setIsInspecting, selectPropertiesTab, hins]

/-- C5 (witness): the scenario at the concrete state `sCall`. -/
theorem C5_scenario_witness :
    (setIsInspecting true sCall).selectedPropertiesTab = "inspector" ∧
    (setIsInspecting true sCall).isInspecting = true ∧
    (selectPropertiesTab "log" (setIsInspecting true sCall)).isInspecting = false ∧
    (selectPropertiesTab "log" (setIsInspecting true sCall)).selectedPropertiesTab = "log" :=
  C5_scenario sCall rfl rfl

/-- C6: the active action is the highlighted action whenever present and
the selected action otherwise; the result is always one of the two
inputs, unaltered. -/
theorem C6_active_action (h s : Option Action) :
    resolveActiveAction h s = (match h with | some a => some a | none => s) ∧
    (resolveActiveAction h s = h ∨ resolveActiveAction h s = s) := by
  cases h with
  | none => exact ⟨rfl, Or.inr rfl⟩
  | some a => exact ⟨rfl, Or.inl rfl⟩

/-- C7 (counterexample): the empty string is falsy in JS, so a
`selectedCallId` of `""` matching an action whose `callId` is `""` is
never looked up; on a two-action model the resolver falls through to the
last action instead of the matching first one. -/
theorem C7_counterexample :
    mEmptyId.actions.find? (fun a => a.callId = "") = some ⟨"", "x", none⟩ ∧
    resolveSelectedAction (some mEmptyId) (some "") = some ⟨"b", "y", none⟩ ∧
    (some (⟨"", "x", none⟩ : Action)) ≠ (some (⟨"b", "y", none⟩ : Action)) := by
  decide

/-- C7 (amended): for every model whose actions carry pairwise-distinct
`callId`s and every non-empty `selectedCallId` matching the `callId` of
some action, the resolver returns that action, regardless of the model's
failed action and of the action's position. -/
theorem C7_matching_id (m : Model) (s : String) (a : Action)
    (hs : s ≠ "") (hmem : a ∈ m.actions) (hid : a.callId = s)
    (huniq : m.actions.Pairwise (fun x y => x.callId ≠ y.callId)) :
    resolveSelectedAction (some m) (some s) = some a := by
  subst hid
  have hfind := find?_callId_of_mem m.actions a hmem huniq
  simp only [resolveSelectedAction, resolveById, if_neg hs, hfind]

/-- C7 (witness): on a model that does report a failed action, selecting
the second action by id still returns that second action. -/
theorem C7_matching_id_witness :
    resolveSelectedAction (some mFailed) (some "b") = some ⟨"b", "y", none⟩ :=
  C7_matching_id mFailed "b" ⟨"b", "y", none⟩ (by decide) (by decide) rfl (by decide)

/-- C8: replacing the model clears `selectedTime` and `revealedError`
and leaves every other store field unchanged. -/
theorem C8_model_replacement (s : WorkbenchState) :
    (onModelReplaced s).selectedTime = none ∧
    (onModelReplaced s).revealedError = none ∧
    (onModelReplaced s).selectedCallId = s.selectedCallId ∧
    (onModelReplaced s).highlightedCallId = s.highlightedCallId ∧
    (onModelReplaced s).highlightedEntry = s.highlightedEntry ∧
    (onModelReplaced s).highlightedConsoleMessage = s.highlightedConsoleMessage ∧
    (onModelReplaced s).selectedNavigatorTab = s.selectedNavigatorTab ∧
    (onModelReplaced s).selectedPropertiesTab = s.selectedPropertiesTab ∧
    (onModelReplaced s).isInspecting = s.isInspecting ∧
    (onModelReplaced s).highlightedLocator = s.highlightedLocator ∧
    (onModelReplaced s).sidebarLocation = s.sidebarLocation ∧
    (onModelReplaced s).revealedAttachment = s.revealedAttachment :=
  ⟨rfl, rfl, rfl, rfl, rfl, rfl, rfl, rfl, rfl, rfl, rfl, rfl⟩

/-- C9: without annotations the properties tab list is exactly the seven
base tabs in order; with an annotations list exactly one annotations tab
is appended last, its badge equal to the list's length. -/
theorem C9_annotations_append (model : Option Model) (ec cc nc : Nat) :
    (buildTabs false none model ec cc nc).map TabModel.id =
      ["inspector", "call", "log", "errors", "console", "network", "attachments"] ∧
    (buildTabs false none model ec cc nc).length = 7 ∧
    ∀ anns : List AnnotationItem,
      buildTabs false (some anns) model ec cc nc =
        buildTabs false none model ec cc nc ++
          [{ id := "annotations", title := "Annotations",
             count := some anns.length, errorCount := none }] :=
  ⟨rfl, rfl, fun _ => rfl⟩

/-- C10: a model with `startTime = 0` and `endTime = 0` is treated like
an absent model: the defaults produce the window `{0, 30000}` and the
padded boundary `{0, 31500}`. -/
theorem C10_zero_times (m : Model) (h0 : m.startTime = 0) (h1 : m.endTime = 0) :
    boundariesOf (some m) = { minimum := 0, maximum := 31500 } ∧
    boundariesOf (some m) = boundariesOf none := by
  have e1 : defaultedStartTime (some m) = 0 := by simp [defaultedStartTime, h0]
  have e2 : defaultedEndTime (some m) = 30000 := by simp [defaultedEndTime, h1]
  have h3 : ¬ ((0 : ℚ) > 30000) := by norm_num
  constructor
  · simp only [boundariesOf, e1, e2, if_neg h3]
    norm_num [Boundaries.mk.injEq]
  · simp only [boundariesOf, e1, e2]
    rfl

/-- C10 (witness): the all-zero model yields `{0, 31500}`. -/
theorem C10_zero_times_witness :
    boundariesOf (some mZeroTimes) = { minimum := 0, maximum := 31500 } :=
  (C10_zero_times mZeroTimes rfl rfl).1

end TraceViewer
